import Mathlib

set_option maxRecDepth 100000

/-!
Shallow embedding of `src/lls/lls.cpp` (a small `ls`-style directory lister).

The embedding models:
- the data of a collected directory entry (`Entry`, from `fs::directory_entry`
  as the program uses it: base name, directory flag, size, last write time);
- the option record `LsOptions` and the argument loop `ParseArguments`;
- the listing pipeline of `ListFiles`: collect (with the `-d` filter), sort
  (`std::sort` with the comparators of lines 113-122, modelled as a relation
  because `std::sort` only guarantees a sorted permutation), and the four
  render paths (grid, long, one-column, default two-space-joined);
- the external collaborators as parameters: the filesystem is a partial map
  from a path to its children (`none` models the `filesystem_error` thrown by
  `fs::directory_iterator`), the console width is a number, and
  `localtime_s` is a partial conversion from a timestamp to a broken-down
  `Tm` (its failure models the nonzero return checked at line 163).

Output is modelled as the text printed to `stdout` plus the list of
diagnostic lines printed to `stderr`.
-/

/-- One collected directory entry, as the program reads it from the
filesystem: base filename, whether it is a directory, its size in bytes and
its last write time (an abstract totally ordered timestamp). -/
structure Entry where
  name : String
  isDirectory : Bool
  size : Nat
  modifiedTime : Int
deriving Repr, DecidableEq

/-- The option record `LsOptions` of lls.cpp lines 13-21, with the same
defaults. -/
structure LsOptions where
  longListing : Bool := false
  directoriesOnly : Bool := false
  sortByTime : Bool := false
  sortBySize : Bool := false
  oneColumn : Bool := false
  multiColumn : Bool := false
  directory : String := "."
deriving Repr, DecidableEq

/-- The text printed by `DisplayUsage` (lls.cpp lines 24-33). -/
def usageText : String :=
  "Usage: lls [options] [directory]\n" ++
  "Options:\n" ++
  "  -l        Long listing format\n" ++
  "  -d        List directories only\n" ++
  "  -t        Sort by modification time\n" ++
  "  -s        Sort by file size\n" ++
  "  -1        One column output\n" ++
  "  -C        Multi-column output\n"

/-- Models the C++ test `arg[0] == '-'` (lls.cpp line 72).  For the empty
string `arg[0]` reads the terminating NUL, which also differs from `-`. -/
def startsWithDash (s : String) : Bool := s.data.head? == some '-'

/-- Result of `ParseArguments`: either the process exited inside the loop
(`--help`, `-h`, `-?`, `--version` call `exit(0)`), or the loop finished with
final options.  Both carry the text accumulated on stdout and the diagnostic
lines accumulated on stderr. -/
inductive ParseResult where
  | exited (stdout : String) (stderr : List String)
  | done (options : LsOptions) (stdout : String) (stderr : List String)
deriving Repr, DecidableEq

/-- How the `if`/`else if` chain of `ParseArguments` (lls.cpp lines 44-84)
classifies one argument. -/
inductive ArgKind where
  | flagL
  | flagD
  | flagT
  | flagS
  | flag1
  | flagC
  | help
  | version
  | unknown
  | dir
  | invalid
deriving Repr, DecidableEq

/-- The `if`/`else if` chain of `ParseArguments` (lls.cpp lines 44-84), in
source order: the six flags, then `--help`/`-h`/`-?`, then `--version`, then
the final `else` block which reports an unknown option when the argument
begins with a dash, takes a valid directory as the directory argument, and
reports an invalid directory otherwise. -/
def classifyArg (validDir : String → Bool) (arg : String) : ArgKind :=
  if arg = "-l" then .flagL
  else if arg = "-d" then .flagD
  else if arg = "-t" then .flagT
  else if arg = "-s" then .flagS
  else if arg = "-1" then .flag1
  else if arg = "-C" then .flagC
  else if arg = "--help" ∨ arg = "-h" ∨ arg = "-?" then .help
  else if arg = "--version" then .version
  else if startsWithDash arg then .unknown
  else if validDir arg then .dir
  else .invalid

/-- The argument loop of `ParseArguments` (lls.cpp lines 41-86).
`validDir` models `IsValidDirectory` (exists-and-is-a-directory); `outAcc`
and `errAcc` are the stdout/stderr text produced so far. -/
def ParseArguments (validDir : String → Bool) (o : LsOptions)
    (outAcc : String) (errAcc : List String) : List String → ParseResult
  | [] => .done o outAcc errAcc
  | arg :: rest =>
    match classifyArg validDir arg with
    | .flagL => ParseArguments validDir { o with longListing := true } outAcc errAcc rest
    | .flagD => ParseArguments validDir { o with directoriesOnly := true } outAcc errAcc rest
    | .flagT => ParseArguments validDir { o with sortByTime := true } outAcc errAcc rest
    | .flagS => ParseArguments validDir { o with sortBySize := true } outAcc errAcc rest
    | .flag1 => ParseArguments validDir { o with oneColumn := true } outAcc errAcc rest
    | .flagC => ParseArguments validDir { o with multiColumn := true } outAcc errAcc rest
    | .help => .exited (outAcc ++ usageText) errAcc
    | .version => .exited (outAcc ++ "lls version 1.0.0\n") errAcc
    | .unknown =>
        ParseArguments validDir o (outAcc ++ usageText) (errAcc ++ ["Unknown option: " ++ arg]) rest
    | .dir => ParseArguments validDir { o with directory := arg } outAcc errAcc rest
    | .invalid =>
        ParseArguments validDir o (outAcc ++ usageText) (errAcc ++ ["Invalid directory: " ++ arg]) rest

/-- Broken-down local time, the fields of `std::tm` that the format string
`%Y-%m-%d %H:%M:%S` reads. -/
structure Tm where
  year : Nat
  month : Nat
  day : Nat
  hour : Nat
  minute : Nat
  second : Nat
deriving Repr, DecidableEq

/-- Two-digit zero padding, as `%m`, `%d`, `%H`, `%M`, `%S` print. -/
def pad2 (n : Nat) : String := if n < 10 then "0" ++ toString n else toString n

/-- Models `std::put_time(&timeInfo, "%Y-%m-%d %H:%M:%S")` (lls.cpp line
166). -/
def formatTm (t : Tm) : String :=
  toString t.year ++ "-" ++ pad2 t.month ++ "-" ++ pad2 t.day ++ " " ++
  pad2 t.hour ++ ":" ++ pad2 t.minute ++ ":" ++ pad2 t.second

/-- `std::setw w << std::left << s`: pad `s` on the right with spaces to
width `w`; a longer string is not truncated. -/
def padRight (s : String) (w : Nat) : String :=
  s ++ String.mk (List.replicate (w - s.length) ' ')

/-- `std::setw w << s` with the default (right) adjustment: pad `s` on the
left with spaces to width `w`; a longer string is not truncated. -/
def padLeft (s : String) (w : Nat) : String :=
  String.mk (List.replicate (w - s.length) ' ') ++ s

/-- Concatenation of a list of strings. -/
def concatStr : List String → String
  | [] => ""
  | s :: rest => s ++ concatStr rest

/-- Concatenation of a list of lists. -/
def concatAll : List (List α) → List α
  | [] => []
  | xs :: rest => xs ++ concatAll rest

/-- Splits a list into consecutive chunks of length `c` (the last chunk may
be shorter); used to describe the rows of the grid layout. -/
def chunkList (c : Nat) : List α → List (List α)
  | [] => []
  | x :: xs => (x :: xs.take (c - 1)) :: chunkList c (xs.drop (c - 1))
termination_by l => l.length
decreasing_by simp [List.length_drop]; omega

/-- The maximum-filename-length scan of lls.cpp lines 126-133 (0 for an
empty sequence). -/
def maxFilenameLength (entries : List Entry) : Nat :=
  entries.foldl (fun m e => max m e.name.length) 0

/-- The column count of lls.cpp lines 135-136:
`consoleWidth / (maxFilenameLength + 2)`, clamped to a minimum of 1. -/
def gridColumns (width maxLen : Nat) : Nat :=
  let c := width / (maxLen + 2)
  if c < 1 then 1 else c

/-- One grid cell (lls.cpp line 141): the name left-justified and padded to
`maxLen`, followed by two spaces. -/
def cellOut (maxLen : Nat) (e : Entry) : String :=
  padRight e.name maxLen ++ "  "

/-- One iteration of the grid printing loop (lls.cpp lines 140-145): print
the cell, increment the counter, and emit a newline after every `cols`-th
entry. -/
def gridStep (cols maxLen : Nat) (acc : Nat × String) (e : Entry) : Nat × String :=
  let out := acc.2 ++ cellOut maxLen e
  let cnt := acc.1 + 1
  if cnt % cols = 0 then (cnt, out ++ "\n") else (cnt, out)

/-- The multi-column branch of `ListFiles` (lls.cpp lines 124-150): compute
the maximum name length and the column count, print the cells row-major, and
terminate a final partial row with a newline. -/
def gridRender (width : Nat) (entries : List Entry) : String :=
  let maxLen := maxFilenameLength entries
  let cols := gridColumns width maxLen
  let r := entries.foldl (gridStep cols maxLen) (0, "")
  if r.1 % cols ≠ 0 then r.2 ++ "\n" else r.2

/-- What the program prints to stdout, together with the diagnostic lines it
prints to stderr. -/
structure Output where
  stdout : String
  stderr : List String
deriving Repr, DecidableEq

/-- The simple (non-long) item of lls.cpp line 175: the name followed by a
newline under `-1`, otherwise by two spaces. -/
def simpleItem (oneColumn : Bool) (e : Entry) : String :=
  e.name ++ (if oneColumn then "\n" else "  ")

/-- The stdout contribution of one entry in the long-listing branch
(lls.cpp lines 156-171): when the timestamp conversion succeeds, the line is
the type indicator, the size right-justified in a field of (at least) 10
characters, a space, the formatted local time, a space, the name and a
newline; when it fails, nothing is printed to stdout. -/
def longStdout (conv : Int → Option Tm) (e : Entry) : String :=
  match conv e.modifiedTime with
  | some tm =>
      (if e.isDirectory then "d" else "-") ++ padLeft (toString e.size) 10 ++ " " ++
      formatTm tm ++ " " ++ e.name ++ "\n"
  | none => ""

/-- The stderr contribution of one entry in the long-listing branch: a
diagnostic naming the entry when the timestamp conversion fails (lls.cpp
line 170), nothing otherwise. -/
def longStderr (conv : Int → Option Tm) (e : Entry) : List String :=
  match conv e.modifiedTime with
  | some _ => []
  | none => ["Error converting time for file: " ++ e.name]

/-- One iteration of the display loop of lls.cpp lines 153-177. -/
def displayStep (conv : Int → Option Tm) (opts : LsOptions) (acc : Output) (e : Entry) : Output :=
  if opts.longListing then
    { stdout := acc.stdout ++ longStdout conv e, stderr := acc.stderr ++ longStderr conv e }
  else
    { stdout := acc.stdout ++ simpleItem opts.oneColumn e, stderr := acc.stderr }

/-- The rendering part of `ListFiles` (lls.cpp lines 124-181), applied to
the already collected and sorted entries: the multi-column branch returns
early; otherwise the display loop runs and a final newline is printed
unless `-1` was given. -/
def renderEntries (width : Nat) (conv : Int → Option Tm) (opts : LsOptions)
    (entries : List Entry) : Output :=
  if opts.multiColumn then { stdout := gridRender width entries, stderr := [] }
  else
    let o := entries.foldl (displayStep conv opts) { stdout := "", stderr := [] }
    if !opts.oneColumn then { o with stdout := o.stdout ++ "\n" } else o

/-- The collection filter of lls.cpp lines 105-110: skip non-directories
when `-d` was given. -/
def collectEntries (opts : LsOptions) (children : List Entry) : List Entry :=
  children.filter (fun e => !(opts.directoriesOnly && !e.isDirectory))

/-- The `-t` comparator of lls.cpp line 115: `a` precedes `b` when its last
write time is strictly later. -/
def timeCmp (a b : Entry) : Prop := b.modifiedTime < a.modifiedTime

/-- The `-s` comparator of lls.cpp line 120: `a` precedes `b` when its size
is strictly larger. -/
def sizeCmp (a b : Entry) : Prop := b.size < a.size

/-- The postcondition of `std::sort(v, cmp)`: the result is some permutation
of the input that is sorted for `cmp` (no element strictly precedes, under
`cmp`, an element placed before it).  `std::sort` guarantees nothing more:
in particular it is not a stable sort. -/
def SortResult (cmp : Entry → Entry → Prop) (input output : List Entry) : Prop :=
  output.Perm input ∧ output.Pairwise (fun a b => ¬ cmp b a)

/-- The sorting step of `ListFiles` (lls.cpp lines 112-122): `-t` first,
else `-s`, else the collected order is kept unchanged. -/
def SorterResult (opts : LsOptions) (input output : List Entry) : Prop :=
  if opts.sortByTime then SortResult timeCmp input output
  else if opts.sortBySize then SortResult sizeCmp input output
  else output = input

/-- `a` occurs (as a value) strictly before `b` in `l`. -/
def PrecedesIn (l : List Entry) (a b : Entry) : Prop :=
  ∃ i j : Nat, i < j ∧ l[i]? = some a ∧ l[j]? = some b

/-- Stability of the time sort, as the spec states it: any two entries with
equal modification times keep their relative collection order. -/
def StableForTime (input output : List Entry) : Prop :=
  ∀ a b, a.modifiedTime = b.modifiedTime → PrecedesIn input a b → PrecedesIn output a b

/-- The whole of `ListFiles` (lls.cpp lines 98-186) as a relation between
the program's inputs and the produced output.  `fs` maps a path to its
children (`none` when `fs::directory_iterator` throws); `what` gives the
`e.what()` message of that exception; `conv` models the
`file time → localtime` conversion.  The catch handler (lines 183-185)
prints a single `Error:` line and nothing else. -/
def ListFilesOutput (fs : String → Option (List Entry)) (what : String → String)
    (width : Nat) (conv : Int → Option Tm) (opts : LsOptions) (out : Output) : Prop :=
  match fs opts.directory with
  | none => out = { stdout := "", stderr := ["Error: " ++ what opts.directory] }
  | some children =>
      ∃ sorted, SorterResult opts (collectEntries opts children) sorted ∧
        out = renderEntries width conv opts sorted

/-- The four layout modes of the spec. -/
inductive LayoutMode where
  | grid
  | long
  | oneCol
  | plain
deriving Repr, DecidableEq

/-- The mode of highest precedence among the set flags: grid, then long,
then one-column, then the default two-space-joined mode. -/
def selectMode (o : LsOptions) : LayoutMode :=
  if o.multiColumn then .grid
  else if o.longListing then .long
  else if o.oneColumn then .oneCol
  else .plain

/-- Options with exactly the flag of the given mode set. -/
def canonicalOpts : LayoutMode → LsOptions
  | .grid => { multiColumn := true }
  | .long => { longListing := true }
  | .oneCol => { oneColumn := true }
  | .plain => {}

/-- The rendering of a single pure layout mode. -/
def modeRender (width : Nat) (conv : Int → Option Tm) (m : LayoutMode)
    (entries : List Entry) : Output :=
  renderEntries width conv (canonicalOpts m) entries

/-- The default-mode output as the spec's words describe it: the entry
names joined by two spaces (a separator between names, not a suffix),
followed by a trailing newline. -/
def specDefaultJoined (entries : List Entry) : String :=
  String.intercalate "  " (entries.map (fun e => e.name)) ++ "\n"

/-- The last argument that the argument loop classifies as a valid
positional directory argument, if any. -/
def lastDir (validDir : String → Bool) (args : List String) : Option String :=
  (args.filter (fun a => classifyArg validDir a == .dir)).getLast?

/-- Decidability of the comparators, so that concrete sort results can be
checked by evaluation. -/
instance (a b : Entry) : Decidable (timeCmp a b) :=
  inferInstanceAs (Decidable (b.modifiedTime < a.modifiedTime))

instance (a b : Entry) : Decidable (sizeCmp a b) :=
  inferInstanceAs (Decidable (b.size < a.size))

instance (cmp : Entry → Entry → Prop) [∀ a b, Decidable (cmp a b)]
    (input output : List Entry) : Decidable (SortResult cmp input output) :=
  inferInstanceAs (Decidable (output.Perm input ∧ output.Pairwise (fun a b => ¬ cmp b a)))

/-! ### Helper lemmas -/

theorem one_le_gridColumns (w m : Nat) : 1 ≤ gridColumns w m := by
  show 1 ≤ if w / (m + 2) < 1 then 1 else w / (m + 2)
  split <;> omega

theorem gridColumns_eq_max (w m : Nat) : gridColumns w m = max 1 (w / (m + 2)) := by
  show (if w / (m + 2) < 1 then 1 else w / (m + 2)) = max 1 (w / (m + 2))
  split <;> omega

theorem simpleItem_false : simpleItem false = fun e => e.name ++ "  " := by
  funext e
  simp [simpleItem]

theorem simpleItem_true : simpleItem true = fun e => e.name ++ "\n" := by
  funext e
  simp [simpleItem]

theorem padLeft_length (s : String) (w : Nat) : (padLeft s w).length = max w s.length := by
  unfold padLeft
  rw [String.length_append]
  have h1 : (String.mk (List.replicate (w - s.length) ' ')).length = w - s.length := by
    show (List.replicate (w - s.length) ' ').length = w - s.length
    exact List.length_replicate _ _
  rw [h1]
  omega

theorem displayFold_long (conv : Int → Option Tm) (opts : LsOptions)
    (hl : opts.longListing = true) (entries : List Entry) :
    ∀ acc : Output,
      entries.foldl (displayStep conv opts) acc =
        { stdout := acc.stdout ++ concatStr (entries.map (longStdout conv)),
          stderr := acc.stderr ++ concatAll (entries.map (longStderr conv)) } := by
  induction entries with
  | nil =>
      intro acc
      simp [concatStr, concatAll]
  | cons e rest ih =>
      intro acc
      rw [List.foldl_cons, ih]
      simp [displayStep, hl, concatStr, concatAll, String.append_assoc]

theorem displayFold_simple (conv : Int → Option Tm) (opts : LsOptions)
    (hl : opts.longListing = false) (entries : List Entry) :
    ∀ acc : Output,
      entries.foldl (displayStep conv opts) acc =
        { stdout := acc.stdout ++ concatStr (entries.map (simpleItem opts.oneColumn)),
          stderr := acc.stderr } := by
  induction entries with
  | nil =>
      intro acc
      simp [concatStr]
  | cons e rest ih =>
      intro acc
      rw [List.foldl_cons, ih]
      simp [displayStep, hl, concatStr, String.append_assoc]

theorem renderEntries_long_eq (w : Nat) (conv : Int → Option Tm) (opts : LsOptions)
    (hmc : opts.multiColumn = false) (hl : opts.longListing = true)
    (h1 : opts.oneColumn = false) (entries : List Entry) :
    renderEntries w conv opts entries =
      { stdout := concatStr (entries.map (longStdout conv)) ++ "\n",
        stderr := concatAll (entries.map (longStderr conv)) } := by
  unfold renderEntries
  rw [hmc, displayFold_long conv opts hl entries, h1]
  simp

theorem renderEntries_longOne_eq (w : Nat) (conv : Int → Option Tm) (opts : LsOptions)
    (hmc : opts.multiColumn = false) (hl : opts.longListing = true)
    (h1 : opts.oneColumn = true) (entries : List Entry) :
    renderEntries w conv opts entries =
      { stdout := concatStr (entries.map (longStdout conv)),
        stderr := concatAll (entries.map (longStderr conv)) } := by
  unfold renderEntries
  rw [hmc, displayFold_long conv opts hl entries, h1]
  simp

theorem renderEntries_plain_eq (w : Nat) (conv : Int → Option Tm) (opts : LsOptions)
    (hmc : opts.multiColumn = false) (hl : opts.longListing = false)
    (h1 : opts.oneColumn = false) (entries : List Entry) :
    renderEntries w conv opts entries =
      { stdout := concatStr (entries.map (fun e => e.name ++ "  ")) ++ "\n",
        stderr := [] } := by
  unfold renderEntries
  rw [hmc, displayFold_simple conv opts hl entries, h1, simpleItem_false]
  simp

theorem renderEntries_oneCol_eq (w : Nat) (conv : Int → Option Tm) (opts : LsOptions)
    (hmc : opts.multiColumn = false) (hl : opts.longListing = false)
    (h1 : opts.oneColumn = true) (entries : List Entry) :
    renderEntries w conv opts entries =
      { stdout := concatStr (entries.map (fun e => e.name ++ "\n")),
        stderr := [] } := by
  unfold renderEntries
  rw [hmc, displayFold_simple conv opts hl entries, h1, simpleItem_true]
  simp

theorem sorter_nil (opts : LsOptions) (sorted : List Entry)
    (h : SorterResult opts [] sorted) : sorted = [] := by
  unfold SorterResult at h
  split at h
  · exact h.1.eq_nil
  · split at h
    · exact h.1.eq_nil
    · exact h

theorem mem_concatAll {x : α} {xs : List α} {l : List (List α)}
    (hxs : xs ∈ l) (hx : x ∈ xs) : x ∈ concatAll l := by
  induction l with
  | nil => cases hxs
  | cons y ys ih =>
      rw [show concatAll (y :: ys) = y ++ concatAll ys from rfl, List.mem_append]
      rcases List.mem_cons.mp hxs with hh | hh
      · exact Or.inl (hh ▸ hx)
      · exact Or.inr (ih hh)

theorem getLastD_cons (a d : String) (l : List String) :
    ((a :: l).getLast?).getD d = (l.getLast?).getD a := by
  induction l generalizing a d with
  | nil => rfl
  | cons x xs ih =>
      rw [List.getLast?_cons_cons, ih x d, ih x a]


/-! ### Claim theorems -/

/-- Claim C6: for every path for which directory enumeration fails, the
listing operation emits exactly one diagnostic line (the `Error:` line built
from the exception message, which identifies the path and cause) and
produces no entry output; the run is a single total step, so that directory
is not retried and the process does not crash. -/
theorem C6_traversal_failure (fs : String → Option (List Entry)) (what : String → String)
    (width : Nat) (conv : Int → Option Tm) (opts : LsOptions) (out : Output)
    (hfail : fs opts.directory = none)
    (hrun : ListFilesOutput fs what width conv opts out) :
    out.stdout = "" ∧ out.stderr = ["Error: " ++ what opts.directory] := by
  unfold ListFilesOutput at hrun
  simp only [hfail] at hrun
  rw [hrun]
  exact ⟨rfl, rfl⟩

/-- Witness for C6 at a concrete failing filesystem. -/
theorem C6_traversal_failure_witness :
    ((fun _ : String => (none : Option (List Entry))) (({} : LsOptions).directory) = none) ∧
    (Output.mk "" ["Error: cannot open directory: ."]).stdout = "" ∧
    (Output.mk "" ["Error: cannot open directory: ."]).stderr =
      ["Error: " ++ (fun p => "cannot open directory: " ++ p) (({} : LsOptions).directory)] := by
  refine ⟨rfl, ?_⟩
  have hrun : ListFilesOutput (fun _ => none) (fun p => "cannot open directory: " ++ p) 80
      (fun _ => none) {} (Output.mk "" ["Error: cannot open directory: ."]) := by
    show (Output.mk "" ["Error: cannot open directory: ."]) =
      { stdout := "", stderr := ["Error: " ++ ("cannot open directory: " ++ ".")] }
    decide
  exact C6_traversal_failure (fun _ => none) (fun p => "cannot open directory: " ++ p) 80
    (fun _ => none) {} (Output.mk "" ["Error: cannot open directory: ."]) rfl hrun

/-- Claim C8: in grid mode an empty directory produces no entry output and
no newline, and the column count is clamped to at least 1 even when the
maximum name length is 0, so the per-entry modulo arithmetic never uses a
zero divisor. -/
theorem C8_grid_empty (fs : String → Option (List Entry)) (what : String → String)
    (width : Nat) (conv : Int → Option Tm) (opts : LsOptions) (out : Output)
    (hmc : opts.multiColumn = true)
    (hempty : fs opts.directory = some [])
    (hrun : ListFilesOutput fs what width conv opts out) :
    out = { stdout := "", stderr := [] } ∧ ∀ w m : Nat, 1 ≤ gridColumns w m := by
  refine ⟨?_, fun w m => one_le_gridColumns w m⟩
  unfold ListFilesOutput at hrun
  simp only [hempty] at hrun
  obtain ⟨sorted, hsort, hout⟩ := hrun
  have hnil : sorted = [] := sorter_nil opts sorted (by simpa [collectEntries] using hsort)
  subst hnil
  rw [hout]
  unfold renderEntries
  rw [hmc]
  simp [gridRender, maxFilenameLength]

/-- Witness for C8: empty directory, `-C`, width 80. -/
theorem C8_grid_empty_witness :
    (({ multiColumn := true } : LsOptions).multiColumn = true) ∧
    ((fun _ : String => some ([] : List Entry)) (({ multiColumn := true } : LsOptions).directory) = some []) ∧
    ((Output.mk "" []) = { stdout := "", stderr := [] } ∧ ∀ w m : Nat, 1 ≤ gridColumns w m) := by
  refine ⟨rfl, rfl, ?_⟩
  have hrun : ListFilesOutput (fun _ => some []) (fun p => p) 80 (fun _ => none)
      { multiColumn := true } (Output.mk "" []) :=
    ⟨[], rfl, by decide⟩
  exact C8_grid_empty (fun _ => some []) (fun p => p) 80 (fun _ => none)
    { multiColumn := true } (Output.mk "" []) rfl rfl hrun

/-- Claim C9, counterexample: in default mode the program prints each name
followed by two spaces (so the output ends in two spaces before the
newline); the names are not merely joined by two-space separators as the
claim states.  With names `a` and `b` the program prints `a  b  \n`, not
`a  b\n`. -/
theorem C9_counterexample :
    (renderEntries 80 (fun _ => none) {} [⟨"a", false, 0, 0⟩, ⟨"b", false, 0, 0⟩]).stdout ≠
      specDefaultJoined [⟨"a", false, 0, 0⟩, ⟨"b", false, 0, 0⟩] := by decide

/-- Claim C9, amended: default mode emits each name followed by two spaces
and then exactly one trailing newline; long-listing mode also ends with a
trailing newline (one beyond the per-line newlines); one-column mode emits
each name on its own line and adds no extra trailing newline. -/
theorem C9_amended (width : Nat) (conv : Int → Option Tm) (entries : List Entry) :
    (renderEntries width conv {} entries).stdout =
      concatStr (entries.map (fun e => e.name ++ "  ")) ++ "\n" ∧
    (renderEntries width conv { longListing := true } entries).stdout =
      concatStr (entries.map (longStdout conv)) ++ "\n" ∧
    (renderEntries width conv { oneColumn := true } entries).stdout =
      concatStr (entries.map (fun e => e.name ++ "\n")) := by
  refine ⟨?_, ?_, ?_⟩
  · rw [renderEntries_plain_eq width conv {} rfl rfl rfl entries]
  · rw [renderEntries_long_eq width conv { longListing := true } rfl rfl rfl entries]
  · rw [renderEntries_oneCol_eq width conv { oneColumn := true } rfl rfl rfl entries]

/-- Claim C1, counterexample: the program sorts with `std::sort`, whose
contract only guarantees a sorted permutation, not stability.  For two
entries with equal modification times, the reversed order is a permitted
result of the sorting step under `-t`, and it does not keep the relative
collection order of the equal-key entries. -/
theorem C1_counterexample :
    SorterResult { sortByTime := true }
      [⟨"a", false, 0, 5⟩, ⟨"b", false, 0, 5⟩] [⟨"b", false, 0, 5⟩, ⟨"a", false, 0, 5⟩] ∧
    ¬ StableForTime [⟨"a", false, 0, 5⟩, ⟨"b", false, 0, 5⟩]
        [⟨"b", false, 0, 5⟩, ⟨"a", false, 0, 5⟩] := by
  constructor
  · show SortResult timeCmp _ _
    exact ⟨List.Perm.swap _ _ _, by decide⟩
  · intro h
    obtain ⟨i, j, hij, hi, hj⟩ :=
      h ⟨"a", false, 0, 5⟩ ⟨"b", false, 0, 5⟩ rfl ⟨0, 1, Nat.zero_lt_one, rfl, rfl⟩
    match j, hij, hj with
    | 1, hij, hj => exact absurd hj (by decide)
    | (j + 2), hij, hj =>
        have hnone : ([⟨"b", false, 0, 5⟩, ⟨"a", false, 0, 5⟩] : List Entry)[j + 2]? = none :=
          List.getElem?_eq_none (by simp)
        rw [hnone] at hj
        exact Option.noConfusion hj

/-- Claim C1, amended: under `-t` the sorting step yields a permutation of
the collected entries whose modification times are non-increasing (time is
the authoritative key even when `-s` is also set, because the `-t` branch is
checked first); otherwise under `-s` it yields a permutation with
non-increasing sizes; with neither flag the sequence is unchanged.  Equal
keys need not keep their collection order: `std::sort` is not stable. -/
theorem C1_amended (opts : LsOptions) (input output : List Entry)
    (h : SorterResult opts input output) :
    (opts.sortByTime = true →
      output.Perm input ∧ output.Pairwise (fun a b => b.modifiedTime ≤ a.modifiedTime)) ∧
    (opts.sortByTime = false → opts.sortBySize = true →
      output.Perm input ∧ output.Pairwise (fun a b => b.size ≤ a.size)) ∧
    (opts.sortByTime = false → opts.sortBySize = false → output = input) := by
  unfold SorterResult at h
  refine ⟨fun ht => ?_, fun ht hs => ?_, fun ht hs => ?_⟩
  · simp only [ht, if_true] at h
    exact ⟨h.1, h.2.imp fun hn => not_lt.mp hn⟩
  · simp only [ht, hs, if_true, if_false, Bool.false_eq_true] at h
    exact ⟨h.1, h.2.imp fun hn => not_lt.mp hn⟩
  · simp only [ht, hs, Bool.false_eq_true, if_false] at h
    exact h

/-- Witness for C1 (amended), at the no-sort-flag options. -/
theorem C1_amended_witness :
    SorterResult ({} : LsOptions) [(⟨"a", false, 0, 5⟩ : Entry)] [⟨"a", false, 0, 5⟩] ∧
    (({} : LsOptions).sortByTime = false → ({} : LsOptions).sortBySize = false →
      [(⟨"a", false, 0, 5⟩ : Entry)] = [⟨"a", false, 0, 5⟩]) := by
  have h : SorterResult ({} : LsOptions) [(⟨"a", false, 0, 5⟩ : Entry)] [⟨"a", false, 0, 5⟩] := rfl
  exact ⟨h, (C1_amended {} _ _ h).2.2⟩

/-- Claim C7: in long-listing mode an entry whose timestamp conversion
fails contributes no data line to stdout and is replaced by a diagnostic
naming the entry on stderr, while every other entry still contributes its
rendering (the stdout and stderr of the whole run are the concatenations of
the per-entry contributions, in order). -/
theorem C7_timestamp_failure (width : Nat) (conv : Int → Option Tm) (entries : List Entry)
    (e : Entry) (he : e ∈ entries) (hf : conv e.modifiedTime = none) :
    (renderEntries width conv { longListing := true } entries).stdout =
      concatStr (entries.map (longStdout conv)) ++ "\n" ∧
    (renderEntries width conv { longListing := true } entries).stderr =
      concatAll (entries.map (longStderr conv)) ∧
    longStdout conv e = "" ∧
    ("Error converting time for file: " ++ e.name) ∈
      (renderEntries width conv { longListing := true } entries).stderr := by
  have hre := renderEntries_long_eq width conv { longListing := true } rfl rfl rfl entries
  refine ⟨by rw [hre], by rw [hre], ?_, ?_⟩
  · unfold longStdout
    rw [hf]
  · rw [hre]
    have hmem : ("Error converting time for file: " ++ e.name) ∈ longStderr conv e := by
      unfold longStderr
      rw [hf]
      exact List.mem_singleton.mpr rfl
    exact mem_concatAll (List.mem_map_of_mem _ he) hmem

/-- Witness for C7 at one entry whose conversion fails. -/
theorem C7_timestamp_failure_witness :
    ((⟨"a", false, 0, 0⟩ : Entry) ∈ [(⟨"a", false, 0, 0⟩ : Entry)]) ∧
    (renderEntries 80 (fun _ => none) { longListing := true } [(⟨"a", false, 0, 0⟩ : Entry)]).stdout =
      concatStr ([(⟨"a", false, 0, 0⟩ : Entry)].map (longStdout (fun _ => none))) ++ "\n" ∧
    (renderEntries 80 (fun _ => none) { longListing := true } [(⟨"a", false, 0, 0⟩ : Entry)]).stderr =
      concatAll ([(⟨"a", false, 0, 0⟩ : Entry)].map (longStderr (fun _ => none))) ∧
    longStdout (fun _ => none) (⟨"a", false, 0, 0⟩ : Entry) = "" ∧
    ("Error converting time for file: " ++ (⟨"a", false, 0, 0⟩ : Entry).name) ∈
      (renderEntries 80 (fun _ => none) { longListing := true } [(⟨"a", false, 0, 0⟩ : Entry)]).stderr := by
  exact ⟨by decide, C7_timestamp_failure 80 (fun _ => none) _ _ (by decide) rfl⟩

/-- Changing options fields that the display loop does not read leaves the
per-entry display step unchanged. -/
theorem displayStep_congr (conv : Int → Option Tm) (o1 o2 : LsOptions)
    (hl : o1.longListing = o2.longListing) (h1 : o1.oneColumn = o2.oneColumn) :
    displayStep conv o1 = displayStep conv o2 := by
  funext acc e
  unfold displayStep
  rw [hl, h1]

/-- Claim C3, counterexample: with `-l` and `-1` both set the long-listing
lines are rendered, but the final newline that pure long-listing mode
appends is suppressed by the `-1` flag, so the output is not equal to the
output of the selected (long-listing) mode: the two flags interact instead
of one mode rendering alone. -/
theorem C3_counterexample :
    renderEntries 80 (fun _ => some ⟨1970, 1, 1, 0, 0, 0⟩)
        { longListing := true, oneColumn := true } [⟨"a", false, 0, 0⟩] ≠
      modeRender 80 (fun _ => some ⟨1970, 1, 1, 0, 0, 0⟩)
        (selectMode { longListing := true, oneColumn := true }) [⟨"a", false, 0, 0⟩] := by
  decide

/-- Claim C3, amended: for every options value outside the single
combination `-l -1` (without `-C`), the rendering equals that of the one
mode of highest precedence (grid, then long, then one-column, then
default); in the exceptional combination the long-listing lines are
rendered but the `-1` flag suppresses the final trailing newline of pure
long-listing mode. -/
theorem C3_amended (width : Nat) (conv : Int → Option Tm) (opts : LsOptions)
    (entries : List Entry) :
    (¬(opts.longListing = true ∧ opts.oneColumn = true ∧ opts.multiColumn = false) →
      renderEntries width conv opts entries =
        modeRender width conv (selectMode opts) entries) ∧
    renderEntries width conv { longListing := true, oneColumn := true } entries =
      { stdout := concatStr (entries.map (longStdout conv)),
        stderr := concatAll (entries.map (longStderr conv)) } := by
  constructor
  · intro h
    rcases opts with ⟨l, d, t, s, one, mc, dir⟩
    cases mc
    · cases l
      · cases one <;> rfl
      · cases one
        · rfl
        · exact absurd ⟨rfl, rfl, rfl⟩ h
    · rfl
  · exact renderEntries_longOne_eq width conv { longListing := true, oneColumn := true }
      rfl rfl rfl entries

/-- Witness for C3 (amended), at `-C` together with `-l`. -/
theorem C3_amended_witness :
    (¬(({ multiColumn := true, longListing := true } : LsOptions).longListing = true ∧
        ({ multiColumn := true, longListing := true } : LsOptions).oneColumn = true ∧
        ({ multiColumn := true, longListing := true } : LsOptions).multiColumn = false)) ∧
    renderEntries 80 (fun _ => none) { multiColumn := true, longListing := true }
        [⟨"a", false, 0, 0⟩] =
      modeRender 80 (fun _ => none)
        (selectMode { multiColumn := true, longListing := true }) [⟨"a", false, 0, 0⟩] := by
  refine ⟨by decide, ?_⟩
  exact (C3_amended 80 (fun _ => none) { multiColumn := true, longListing := true }
    [⟨"a", false, 0, 0⟩]).1 (by decide)

/-- An argument that does not start with a dash and is not a valid
directory falls through all branches of the chain to the invalid-directory
report. -/
theorem classify_invalid (validDir : String → Bool) (arg : String)
    (hdash : startsWithDash arg = false) (hvalid : validDir arg = false) :
    classifyArg validDir arg = .invalid := by
  have h1 : arg ≠ "-l" := fun h => by subst h; exact absurd hdash (by decide)
  have h2 : arg ≠ "-d" := fun h => by subst h; exact absurd hdash (by decide)
  have h3 : arg ≠ "-t" := fun h => by subst h; exact absurd hdash (by decide)
  have h4 : arg ≠ "-s" := fun h => by subst h; exact absurd hdash (by decide)
  have h5 : arg ≠ "-1" := fun h => by subst h; exact absurd hdash (by decide)
  have h6 : arg ≠ "-C" := fun h => by subst h; exact absurd hdash (by decide)
  have hhelp : ¬(arg = "--help" ∨ arg = "-h" ∨ arg = "-?") := by
    rintro (h | h | h) <;> (subst h; exact absurd hdash (by decide))
  have hver : arg ≠ "--version" := fun h => by subst h; exact absurd hdash (by decide)
  unfold classifyArg
  rw [if_neg h1, if_neg h2, if_neg h3, if_neg h4, if_neg h5, if_neg h6,
    if_neg hhelp, if_neg hver]
  simp [hdash, hvalid]

/-- Claim C5, amended: an argument that is not a flag and does not name a
valid directory makes the loop emit exactly one diagnostic line naming it
(plus the usage text on stdout) and leaves the options — in particular the
stored directory — unchanged; parsing continues and the listing step later
runs on the previously stored directory, which may well produce entry
output. -/
theorem C5_amended (validDir : String → Bool) (o : LsOptions) (outAcc : String)
    (errAcc : List String) (arg : String) (rest : List String)
    (hdash : startsWithDash arg = false) (hvalid : validDir arg = false) :
    ParseArguments validDir o outAcc errAcc (arg :: rest) =
      ParseArguments validDir o (outAcc ++ usageText)
        (errAcc ++ ["Invalid directory: " ++ arg]) rest := by
  have hc := classify_invalid validDir arg hdash hvalid
  simp only [ParseArguments]
  rw [hc]

/-- Witness for C5 (amended) at the argument `missing`. -/
theorem C5_amended_witness :
    startsWithDash "missing" = false ∧ (fun _ : String => false) "missing" = false ∧
    ParseArguments (fun _ => false) {} "" [] ["missing"] =
      ParseArguments (fun _ => false) {} ("" ++ usageText)
        ([] ++ ["Invalid directory: " ++ "missing"]) [] := by
  exact ⟨by decide, rfl, C5_amended (fun _ => false) {} "" [] "missing" [] (by decide) rfl⟩

/-- Claim C5, counterexample: a nonexistent directory argument produces the
one diagnostic line, but the listing step then runs on the default
directory `.` and does produce entry output (here the line `a  `), contrary
to the claim that no entry output is produced. -/
theorem C5_counterexample :
    ParseArguments (fun d => d == ".") {} "" [] ["missing"] =
      .done {} usageText ["Invalid directory: missing"] ∧
    ListFilesOutput (fun d => if d == "." then some [⟨"a", false, 0, 0⟩] else none)
      (fun p => p) 80 (fun _ => none) {} { stdout := "a  \n", stderr := [] } ∧
    ({ stdout := "a  \n", stderr := [] } : Output).stdout ≠ "" := by
  refine ⟨by decide, ?_, by decide⟩
  exact ⟨[⟨"a", false, 0, 0⟩], rfl, by decide⟩

/-- Claim C10: the final directory option is the last argument classified
as a valid positional directory argument, or the initially stored directory
when there is none; flags, unknown options and invalid directory arguments
never change it. -/
theorem C10_last_dir_wins (validDir : String → Bool) (o : LsOptions) (outAcc : String)
    (errAcc : List String) (args : List String) (o' : LsOptions) (so : String)
    (se : List String)
    (h : ParseArguments validDir o outAcc errAcc args = .done o' so se) :
    o'.directory = (lastDir validDir args).getD o.directory := by
  induction args generalizing o outAcc errAcc with
  | nil =>
      simp only [ParseArguments] at h
      cases h
      simp [lastDir]
  | cons arg rest ih =>
      simp only [ParseArguments] at h
      cases hc : classifyArg validDir arg <;> rw [hc] at h
      case flagL =>
        rw [ih _ _ _ h]
        simp [lastDir, List.filter_cons, hc]
      case flagD =>
        rw [ih _ _ _ h]
        simp [lastDir, List.filter_cons, hc]
      case flagT =>
        rw [ih _ _ _ h]
        simp [lastDir, List.filter_cons, hc]
      case flagS =>
        rw [ih _ _ _ h]
        simp [lastDir, List.filter_cons, hc]
      case flag1 =>
        rw [ih _ _ _ h]
        simp [lastDir, List.filter_cons, hc]
      case flagC =>
        rw [ih _ _ _ h]
        simp [lastDir, List.filter_cons, hc]
      case help => exact ParseResult.noConfusion h
      case version => exact ParseResult.noConfusion h
      case unknown =>
        rw [ih _ _ _ h]
        simp [lastDir, List.filter_cons, hc]
      case dir =>
        rw [ih _ _ _ h]
        simp [lastDir, List.filter_cons, hc, getLastD_cons]
      case invalid =>
        rw [ih _ _ _ h]
        simp [lastDir, List.filter_cons, hc]

/-- Witness for C10: two valid directory arguments, a flag and an invalid
one; the last valid directory wins. -/
theorem C10_last_dir_wins_witness :
    ParseArguments (fun d => d == "a" || d == "b") {} "" [] ["a", "-l", "b", "zz"] =
      .done { longListing := true, directory := "b" } usageText ["Invalid directory: zz"] ∧
    ({ longListing := true, directory := "b" } : LsOptions).directory =
      (lastDir (fun d => d == "a" || d == "b") ["a", "-l", "b", "zz"]).getD
        (({} : LsOptions).directory) := by
  refine ⟨by decide, ?_⟩
  exact C10_last_dir_wins (fun d => d == "a" || d == "b") {} "" [] ["a", "-l", "b", "zz"]
    { longListing := true, directory := "b" } usageText ["Invalid directory: zz"] (by decide)

/-- Under `-t` the sorting step yields a permutation with non-increasing
modification times (the comparator of line 115 under the `std::sort`
postcondition). -/
theorem sorter_time (opts : LsOptions) (input output : List Entry)
    (ht : opts.sortByTime = true) (h : SorterResult opts input output) :
    output.Perm input ∧ output.Pairwise (fun a b => b.modifiedTime ≤ a.modifiedTime) := by
  unfold SorterResult at h
  simp only [ht, if_true] at h
  exact ⟨h.1, h.2.imp fun hn => not_lt.mp hn⟩

/-- Claim C4: in long-listing mode (without `-C`/`-1`) and under `-t`, the
output is the concatenation, over a permutation of the collected entries
with non-increasing modification times, of one line per entry whose
timestamp converts: the type indicator (`d` for a directory, `-`
otherwise), the size right-justified in a field at least 10 characters wide
whatever its magnitude, a space, the `YYYY-MM-DD HH:MM:SS` local time, a
space, and the name. -/
theorem C4_long_format (fs : String → Option (List Entry)) (what : String → String)
    (width : Nat) (conv : Int → Option Tm) (opts : LsOptions) (out : Output)
    (children : List Entry)
    (hl : opts.longListing = true) (hmc : opts.multiColumn = false)
    (h1 : opts.oneColumn = false) (ht : opts.sortByTime = true)
    (hch : fs opts.directory = some children)
    (hrun : ListFilesOutput fs what width conv opts out) :
    ∃ sorted : List Entry,
      sorted.Perm (collectEntries opts children) ∧
      sorted.Pairwise (fun a b => b.modifiedTime ≤ a.modifiedTime) ∧
      out.stdout = concatStr (sorted.map (longStdout conv)) ++ "\n" ∧
      (∀ e tm, conv e.modifiedTime = some tm →
        longStdout conv e =
          (if e.isDirectory then "d" else "-") ++ padLeft (toString e.size) 10 ++ " " ++
          formatTm tm ++ " " ++ e.name ++ "\n") ∧
      (∀ n : Nat, 10 ≤ (padLeft (toString n) 10).length) := by
  unfold ListFilesOutput at hrun
  simp only [hch] at hrun
  obtain ⟨sorted, hsort, hout⟩ := hrun
  refine ⟨sorted, (sorter_time opts _ _ ht hsort).1, (sorter_time opts _ _ ht hsort).2,
    ?_, ?_, ?_⟩
  · rw [hout, renderEntries_long_eq width conv opts hmc hl h1 sorted]
  · intro e tm htm
    unfold longStdout
    rw [htm]
  · intro n
    rw [padLeft_length]
    exact le_max_left _ _

/-- Witness for C4: three files with distinct modification times under
`-t -l`; the sorted order `new`, `mid`, `old` is most-recent-first. -/
theorem C4_long_format_witness :
    ((fun _ : String =>
        some [(⟨"old", false, 1, 1⟩ : Entry), ⟨"new", false, 22, 3⟩, ⟨"mid", true, 333, 2⟩])
      (({ longListing := true, sortByTime := true } : LsOptions).directory) =
      some [(⟨"old", false, 1, 1⟩ : Entry), ⟨"new", false, 22, 3⟩, ⟨"mid", true, 333, 2⟩]) ∧
    (∃ sorted : List Entry,
      sorted.Perm (collectEntries { longListing := true, sortByTime := true }
        [(⟨"old", false, 1, 1⟩ : Entry), ⟨"new", false, 22, 3⟩, ⟨"mid", true, 333, 2⟩]) ∧
      sorted.Pairwise (fun a b => b.modifiedTime ≤ a.modifiedTime) ∧
      (renderEntries 80 (fun t => some ⟨2024, 1, 1, 0, 0, t.toNat⟩)
          { longListing := true, sortByTime := true }
          [(⟨"new", false, 22, 3⟩ : Entry), ⟨"mid", true, 333, 2⟩, ⟨"old", false, 1, 1⟩]).stdout =
        concatStr (sorted.map (longStdout (fun t => some ⟨2024, 1, 1, 0, 0, t.toNat⟩))) ++ "\n" ∧
      (∀ e tm, (fun t : Int => some (⟨2024, 1, 1, 0, 0, t.toNat⟩ : Tm)) e.modifiedTime = some tm →
        longStdout (fun t => some ⟨2024, 1, 1, 0, 0, t.toNat⟩) e =
          (if e.isDirectory then "d" else "-") ++ padLeft (toString e.size) 10 ++ " " ++
          formatTm tm ++ " " ++ e.name ++ "\n") ∧
      (∀ n : Nat, 10 ≤ (padLeft (toString n) 10).length)) := by
  refine ⟨rfl, ?_⟩
  exact C4_long_format
    (fun _ => some [(⟨"old", false, 1, 1⟩ : Entry), ⟨"new", false, 22, 3⟩, ⟨"mid", true, 333, 2⟩])
    (fun p => p) 80 (fun t => some ⟨2024, 1, 1, 0, 0, t.toNat⟩)
    { longListing := true, sortByTime := true }
    (renderEntries 80 (fun t => some ⟨2024, 1, 1, 0, 0, t.toNat⟩)
      { longListing := true, sortByTime := true }
      [(⟨"new", false, 22, 3⟩ : Entry), ⟨"mid", true, 333, 2⟩, ⟨"old", false, 1, 1⟩])
    [(⟨"old", false, 1, 1⟩ : Entry), ⟨"new", false, 22, 3⟩, ⟨"mid", true, 333, 2⟩]
    rfl rfl rfl rfl rfl
    ⟨[(⟨"new", false, 22, 3⟩ : Entry), ⟨"mid", true, 333, 2⟩, ⟨"old", false, 1, 1⟩],
      (by decide :
        SortResult timeCmp
          (collectEntries { longListing := true, sortByTime := true }
            [(⟨"old", false, 1, 1⟩ : Entry), ⟨"new", false, 22, 3⟩, ⟨"mid", true, 333, 2⟩])
          [(⟨"new", false, 22, 3⟩ : Entry), ⟨"mid", true, 333, 2⟩, ⟨"old", false, 1, 1⟩]),
      rfl⟩

/-- One grid row: starting at position `j` of a row (counter `cols*q + j`),
folding the printing step over at most the rest of the row appends the
cells, and appends a newline exactly when the row is completed. -/
theorem gridStep_row (cols maxLen : Nat) (hc : 0 < cols) (row : List Entry) :
    ∀ (q j : Nat) (s : String), j + row.length ≤ cols → j < cols →
      row.foldl (gridStep cols maxLen) (cols * q + j, s) =
        (cols * q + (j + row.length),
         s ++ concatStr (row.map (cellOut maxLen)) ++
           (if j + row.length = cols then "\n" else "")) := by
  induction row with
  | nil =>
      intro q j s hle hlt
      simp only [List.foldl_nil, List.length_nil, Nat.add_zero, List.map_nil]
      rw [if_neg (by omega), show concatStr [] = "" from rfl, String.append_empty,
        String.append_empty]
  | cons x xs ih =>
      intro q j s hle hlt
      rw [List.foldl_cons]
      have hmod : (cols * q + j + 1) % cols = (j + 1) % cols := by
        rw [Nat.add_assoc, Nat.mul_add_mod]
      by_cases hj : j + 1 = cols
      · have hxs : xs = [] := by
          rw [← List.length_eq_zero]
          simp only [List.length_cons] at hle
          omega
        have hmod0 : (cols * q + j + 1) % cols = 0 := by
          rw [hmod, hj, Nat.mod_self]
        have hstep : gridStep cols maxLen (cols * q + j, s) x =
            (cols * q + j + 1, s ++ cellOut maxLen x ++ "\n") := by
          show (if (cols * q + j + 1) % cols = 0
            then (cols * q + j + 1, s ++ cellOut maxLen x ++ "\n")
            else (cols * q + j + 1, s ++ cellOut maxLen x)) =
            (cols * q + j + 1, s ++ cellOut maxLen x ++ "\n")
          rw [if_pos hmod0]
        subst hxs
        rw [hstep, List.foldl_nil]
        simp only [List.length_cons, List.length_nil, Nat.zero_add, List.map_cons,
          List.map_nil]
        rw [if_pos hj, show concatStr [cellOut maxLen x] = cellOut maxLen x ++ "" from rfl,
          String.append_empty, Nat.add_assoc]
      · have hj1 : j + 1 < cols := by
          simp only [List.length_cons] at hle
          omega
        have hmodn : (cols * q + j + 1) % cols = j + 1 := by
          rw [hmod]
          exact Nat.mod_eq_of_lt hj1
        have hstep : gridStep cols maxLen (cols * q + j, s) x =
            (cols * q + (j + 1), s ++ cellOut maxLen x) := by
          show (if (cols * q + j + 1) % cols = 0
            then (cols * q + j + 1, s ++ cellOut maxLen x ++ "\n")
            else (cols * q + j + 1, s ++ cellOut maxLen x)) =
            (cols * q + (j + 1), s ++ cellOut maxLen x)
          rw [if_neg (by rw [hmodn]; omega), Nat.add_assoc]
        rw [hstep, ih q (j + 1) (s ++ cellOut maxLen x)
          (by simp only [List.length_cons] at hle ⊢; omega) hj1]
        have he : j + 1 + xs.length = j + (xs.length + 1) := by omega
        rw [he]
        simp only [List.length_cons, List.map_cons]
        rw [show concatStr (cellOut maxLen x :: xs.map (cellOut maxLen)) =
          cellOut maxLen x ++ concatStr (xs.map (cellOut maxLen)) from rfl]
        simp [String.append_assoc]

/-- The chunk decomposition of the cell sequence of `x :: xs`: the first
row holds the first `cols` cells, the remaining rows are the chunks of the
rest. -/
theorem chunk_cons_cells (cols maxLen : Nat) (x : Entry) (xs : List Entry) :
    (chunkList cols ((x :: xs).map (cellOut maxLen))).map (fun row => concatStr row ++ "\n") =
      (concatStr ((x :: xs.take (cols - 1)).map (cellOut maxLen)) ++ "\n") ::
      (chunkList cols ((xs.drop (cols - 1)).map (cellOut maxLen))).map
        (fun row => concatStr row ++ "\n") := by
  rw [List.map_cons]
  rw [show chunkList cols (cellOut maxLen x :: xs.map (cellOut maxLen)) =
    (cellOut maxLen x :: (xs.map (cellOut maxLen)).take (cols - 1)) ::
      chunkList cols ((xs.map (cellOut maxLen)).drop (cols - 1)) from by rw [chunkList]]
  rw [List.map_cons, ← List.map_take, ← List.map_drop, List.map_cons]

/-- The whole grid printing loop, starting at a row boundary (counter
`cols*q`), followed by the final partial-row newline, produces exactly the
newline-terminated rows of the chunked cell sequence. -/
theorem gridFold_rows (cols maxLen : Nat) (hc : 0 < cols) :
    ∀ (n : Nat) (l : List Entry), l.length ≤ n → ∀ (q : Nat) (s : String),
      (if (l.foldl (gridStep cols maxLen) (cols * q, s)).1 % cols ≠ 0
        then (l.foldl (gridStep cols maxLen) (cols * q, s)).2 ++ "\n"
        else (l.foldl (gridStep cols maxLen) (cols * q, s)).2) =
      s ++ concatStr ((chunkList cols (l.map (cellOut maxLen))).map
        (fun row => concatStr row ++ "\n")) := by
  intro n
  induction n with
  | zero =>
      intro l hl q s
      have hnil : l = [] := List.length_eq_zero.mp (by omega)
      subst hnil
      simp only [List.foldl_nil, List.map_nil]
      rw [if_neg (by simp [Nat.mul_mod_right]),
        show chunkList cols ([] : List String) = [] from by rw [chunkList],
        List.map_nil, show concatStr ([] : List String) = "" from rfl, String.append_empty]
  | succ n ih =>
      intro l hl q s
      cases l with
      | nil =>
          simp only [List.foldl_nil, List.map_nil]
          rw [if_neg (by simp [Nat.mul_mod_right]),
            show chunkList cols ([] : List String) = [] from by rw [chunkList],
            List.map_nil, show concatStr ([] : List String) = "" from rfl, String.append_empty]
      | cons x xs =>
          have hsplit : x :: xs = (x :: xs.take (cols - 1)) ++ xs.drop (cols - 1) := by
            rw [List.cons_append, List.take_append_drop]
          have hrowlen : (x :: xs.take (cols - 1)).length ≤ cols := by
            simp only [List.length_cons, List.length_take]
            omega
          have hrow := gridStep_row cols maxLen hc (x :: xs.take (cols - 1)) q 0 s
            (by omega) hc
          simp only [Nat.add_zero, Nat.zero_add] at hrow
          conv_lhs => rw [hsplit, List.foldl_append, hrow]
          rw [chunk_cons_cells cols maxLen x xs]
          rw [show concatStr ((concatStr ((x :: xs.take (cols - 1)).map (cellOut maxLen)) ++ "\n") ::
            (chunkList cols ((xs.drop (cols - 1)).map (cellOut maxLen))).map
              (fun row => concatStr row ++ "\n")) =
            (concatStr ((x :: xs.take (cols - 1)).map (cellOut maxLen)) ++ "\n") ++
            concatStr ((chunkList cols ((xs.drop (cols - 1)).map (cellOut maxLen))).map
              (fun row => concatStr row ++ "\n")) from rfl]
          by_cases hrest : xs.drop (cols - 1) = []
          · rw [hrest]
            simp only [List.foldl_nil]
            rw [show chunkList cols (([] : List Entry).map (cellOut maxLen)) = [] from by
              simp only [List.map_nil]; rw [chunkList]]
            simp only [List.map_nil]
            rw [show concatStr ([] : List String) = "" from rfl, String.append_empty]
            by_cases hfull : (x :: xs.take (cols - 1)).length = cols
            · rw [if_pos hfull]
              have hcond : ¬ ((cols * q + (x :: xs.take (cols - 1)).length) % cols ≠ 0) := by
                rw [hfull, ← Nat.mul_succ, Nat.mul_mod_right]
                omega
              rw [if_neg hcond]
              simp [String.append_assoc]
            · rw [if_neg hfull]
              have hpos : 0 < (x :: xs.take (cols - 1)).length := by
                simp only [List.length_cons]
                omega
              have hcond : (cols * q + (x :: xs.take (cols - 1)).length) % cols ≠ 0 := by
                rw [Nat.mul_add_mod, Nat.mod_eq_of_lt (by omega)]
                omega
              rw [if_pos hcond]
              simp [String.append_assoc]
          · have hxl : cols - 1 < xs.length := by
              by_contra hcon
              exact hrest (List.drop_eq_nil_of_le (by omega))
            have hfull : (x :: xs.take (cols - 1)).length = cols := by
              simp only [List.length_cons, List.length_take]
              omega
            rw [if_pos hfull, hfull, ← Nat.mul_succ]
            have hih := ih (xs.drop (cols - 1))
              (by simp only [List.length_cons] at hl; simp only [List.length_drop]; omega)
              (q + 1)
              (s ++ concatStr ((x :: xs.take (cols - 1)).map (cellOut maxLen)) ++ "\n")
            rw [hih]
            simp [String.append_assoc]

/-- The grid render of `ListFiles` equals the concatenation of the
newline-terminated rows given by chunking the padded cells into rows of
`gridColumns` cells. -/
theorem gridRender_rows (width : Nat) (entries : List Entry) :
    gridRender width entries =
      concatStr ((chunkList (gridColumns width (maxFilenameLength entries))
        (entries.map (cellOut (maxFilenameLength entries)))).map
        (fun row => concatStr row ++ "\n")) := by
  have h := gridFold_rows (gridColumns width (maxFilenameLength entries))
    (maxFilenameLength entries) (one_le_gridColumns width (maxFilenameLength entries))
    entries.length entries le_rfl 0 ""
  simp only [Nat.mul_zero, String.empty_append] at h
  exact h

/-- The number of chunks of a list is the length divided by the chunk size,
rounded up. -/
theorem chunkList_length (c : Nat) (hc : 0 < c) :
    ∀ (n : Nat) (l : List α), l.length ≤ n →
      (chunkList c l).length = (l.length + c - 1) / c := by
  intro n
  induction n with
  | zero =>
      intro l hl
      have hnil : l = [] := List.length_eq_zero.mp (by omega)
      subst hnil
      rw [show chunkList c ([] : List α) = [] from by rw [chunkList]]
      simp only [List.length_nil]
      rw [Nat.div_eq_of_lt (by omega)]
  | succ n ih =>
      intro l hl
      cases l with
      | nil =>
          rw [show chunkList c ([] : List α) = [] from by rw [chunkList]]
          simp only [List.length_nil]
          rw [Nat.div_eq_of_lt (by omega)]
      | cons x xs =>
          rw [show chunkList c (x :: xs) =
            (x :: xs.take (c - 1)) :: chunkList c (xs.drop (c - 1)) from by rw [chunkList]]
          rw [List.length_cons, ih (xs.drop (c - 1))
            (by simp only [List.length_cons] at hl; simp only [List.length_drop]; omega)]
          rw [List.length_drop, List.length_cons]
          by_cases hx : c - 1 ≤ xs.length
          · have h1 : xs.length - (c - 1) + c - 1 = xs.length := by omega
            have h2 : xs.length + 1 + c - 1 = xs.length + c := by omega
            rw [h1, h2, Nat.add_div_right _ hc]
          · have h1 : xs.length - (c - 1) + c - 1 = c - 1 := by omega
            have h2 : xs.length + 1 + c - 1 = xs.length + c := by omega
            rw [h1, h2, Nat.add_div_right _ hc, Nat.div_eq_of_lt (by omega),
              Nat.div_eq_of_lt (by omega)]

/-- Claim C2: in grid mode the column count is
`max 1 (floor (width / (maxNameLen + 2)))`; the output is exactly the
row-major rows of cells (each name left-justified, padded to the maximum
name length, followed by two spaces), every row — including a final partial
one — terminated by a newline; and the number of rows is
`ceil (entryCount / columnCount)` (as `(n + cols - 1) / cols`).  In
particular at width 40 with all names of length 5 the column width is 7 and
the column count is `40 / 7 = 5`. -/
theorem C2_grid_layout (width : Nat) (entries : List Entry) (hne : entries ≠ []) :
    gridColumns width (maxFilenameLength entries) =
      max 1 (width / (maxFilenameLength entries + 2)) ∧
    gridRender width entries =
      concatStr ((chunkList (gridColumns width (maxFilenameLength entries))
        (entries.map (cellOut (maxFilenameLength entries)))).map
        (fun row => concatStr row ++ "\n")) ∧
    (chunkList (gridColumns width (maxFilenameLength entries))
        (entries.map (cellOut (maxFilenameLength entries)))).length =
      (entries.length + gridColumns width (maxFilenameLength entries) - 1) /
        gridColumns width (maxFilenameLength entries) ∧
    gridColumns 40 5 = 5 := by
  refine ⟨gridColumns_eq_max _ _, gridRender_rows _ _, ?_, by decide⟩
  have h := chunkList_length (gridColumns width (maxFilenameLength entries))
    (one_le_gridColumns width (maxFilenameLength entries))
    (entries.map (cellOut (maxFilenameLength entries))).length
    (entries.map (cellOut (maxFilenameLength entries))) le_rfl
  simpa using h

/-- Witness for C2: width 40, six entries with five-character names
(column width 7, five columns, two rows). -/
theorem C2_grid_layout_witness :
    ([(⟨"aaaaa", false, 0, 0⟩ : Entry), ⟨"bbbbb", false, 0, 0⟩, ⟨"ccccc", false, 0, 0⟩,
      ⟨"ddddd", false, 0, 0⟩, ⟨"eeeee", false, 0, 0⟩, ⟨"fffff", false, 0, 0⟩] ≠
      ([] : List Entry)) ∧
    (gridColumns 40 (maxFilenameLength
        [(⟨"aaaaa", false, 0, 0⟩ : Entry), ⟨"bbbbb", false, 0, 0⟩, ⟨"ccccc", false, 0, 0⟩,
         ⟨"ddddd", false, 0, 0⟩, ⟨"eeeee", false, 0, 0⟩, ⟨"fffff", false, 0, 0⟩]) =
      max 1 (40 / (maxFilenameLength
        [(⟨"aaaaa", false, 0, 0⟩ : Entry), ⟨"bbbbb", false, 0, 0⟩, ⟨"ccccc", false, 0, 0⟩,
         ⟨"ddddd", false, 0, 0⟩, ⟨"eeeee", false, 0, 0⟩, ⟨"fffff", false, 0, 0⟩] + 2)) ∧
    gridRender 40
        [(⟨"aaaaa", false, 0, 0⟩ : Entry), ⟨"bbbbb", false, 0, 0⟩, ⟨"ccccc", false, 0, 0⟩,
         ⟨"ddddd", false, 0, 0⟩, ⟨"eeeee", false, 0, 0⟩, ⟨"fffff", false, 0, 0⟩] =
      concatStr ((chunkList (gridColumns 40 (maxFilenameLength
          [(⟨"aaaaa", false, 0, 0⟩ : Entry), ⟨"bbbbb", false, 0, 0⟩, ⟨"ccccc", false, 0, 0⟩,
           ⟨"ddddd", false, 0, 0⟩, ⟨"eeeee", false, 0, 0⟩, ⟨"fffff", false, 0, 0⟩]))
        ([(⟨"aaaaa", false, 0, 0⟩ : Entry), ⟨"bbbbb", false, 0, 0⟩, ⟨"ccccc", false, 0, 0⟩,
          ⟨"ddddd", false, 0, 0⟩, ⟨"eeeee", false, 0, 0⟩, ⟨"fffff", false, 0, 0⟩].map
          (cellOut (maxFilenameLength
          [(⟨"aaaaa", false, 0, 0⟩ : Entry), ⟨"bbbbb", false, 0, 0⟩, ⟨"ccccc", false, 0, 0⟩,
           ⟨"ddddd", false, 0, 0⟩, ⟨"eeeee", false, 0, 0⟩, ⟨"fffff", false, 0, 0⟩])))).map
        (fun row => concatStr row ++ "\n")) ∧
    (chunkList (gridColumns 40 (maxFilenameLength
        [(⟨"aaaaa", false, 0, 0⟩ : Entry), ⟨"bbbbb", false, 0, 0⟩, ⟨"ccccc", false, 0, 0⟩,
         ⟨"ddddd", false, 0, 0⟩, ⟨"eeeee", false, 0, 0⟩, ⟨"fffff", false, 0, 0⟩]))
        ([(⟨"aaaaa", false, 0, 0⟩ : Entry), ⟨"bbbbb", false, 0, 0⟩, ⟨"ccccc", false, 0, 0⟩,
          ⟨"ddddd", false, 0, 0⟩, ⟨"eeeee", false, 0, 0⟩, ⟨"fffff", false, 0, 0⟩].map
          (cellOut (maxFilenameLength
          [(⟨"aaaaa", false, 0, 0⟩ : Entry), ⟨"bbbbb", false, 0, 0⟩, ⟨"ccccc", false, 0, 0⟩,
           ⟨"ddddd", false, 0, 0⟩, ⟨"eeeee", false, 0, 0⟩, ⟨"fffff", false, 0, 0⟩])))).length =
      ([(⟨"aaaaa", false, 0, 0⟩ : Entry), ⟨"bbbbb", false, 0, 0⟩, ⟨"ccccc", false, 0, 0⟩,
        ⟨"ddddd", false, 0, 0⟩, ⟨"eeeee", false, 0, 0⟩, ⟨"fffff", false, 0, 0⟩].length +
        gridColumns 40 (maxFilenameLength
        [(⟨"aaaaa", false, 0, 0⟩ : Entry), ⟨"bbbbb", false, 0, 0⟩, ⟨"ccccc", false, 0, 0⟩,
         ⟨"ddddd", false, 0, 0⟩, ⟨"eeeee", false, 0, 0⟩, ⟨"fffff", false, 0, 0⟩]) - 1) /
        gridColumns 40 (maxFilenameLength
        [(⟨"aaaaa", false, 0, 0⟩ : Entry), ⟨"bbbbb", false, 0, 0⟩, ⟨"ccccc", false, 0, 0⟩,
         ⟨"ddddd", false, 0, 0⟩, ⟨"eeeee", false, 0, 0⟩, ⟨"fffff", false, 0, 0⟩]) ∧
    gridColumns 40 5 = 5) := by
  exact ⟨by decide, C2_grid_layout 40
    [(⟨"aaaaa", false, 0, 0⟩ : Entry), ⟨"bbbbb", false, 0, 0⟩, ⟨"ccccc", false, 0, 0⟩,
     ⟨"ddddd", false, 0, 0⟩, ⟨"eeeee", false, 0, 0⟩, ⟨"fffff", false, 0, 0⟩] (by decide)⟩
